import Mathlib

/-!
Verification of the persistent event store (`src/persistentEventStore.ts`) and
the session registry of the MCP HTTP server (`src/index.ts`).

Modelling conventions:
* JavaScript strings are modelled as `List Char` (abbreviated `Str`).
* The `McpEvents` SQL table is modelled as a `List Row` in insertion order;
  `StoredAt` is a `Nat` timestamp supplied explicitly (the code reads the wall
  clock via `Date.now()` / `new Date()`, which are environment inputs).
* Database faults are environment inputs as well: `poolErr` models a failure of
  `getDbPool()` (the pool cannot serve the operation) and `insertErr` /
  `queryErr` model a failure thrown by `request.query(...)`.  `none` means the
  operation succeeds; `some e` means the environment throws the raw error `e`.
* The JSON-RPC message type is an opaque type parameter `Msg`; the external
  JSON codec is a pair of functions `stringify : Msg → Str` (`JSON.stringify`)
  and `parse : Str → Option Msg` (`JSON.parse`, `none` modelling a thrown
  parse error).
* `ORDER BY e.StoredAt ASC` is modelled by a stable insertion sort on the
  `storedAt` field.
* The transport registry `transports` of `index.ts` is modelled as the list of
  registered session ids.
-/

namespace MCP

/-- JavaScript strings are modelled as lists of characters. -/
abbrev Str : Type := List Char

/-- One row of the `McpEvents` table:
`EventId NVARCHAR PRIMARY KEY, StreamId NVARCHAR, MessageJson NVARCHAR(MAX),
StoredAt DATETIME2`. -/
structure Row where
  eventId : Str
  streamId : Str
  messageJson : Str
  storedAt : Nat
deriving DecidableEq

/-- `generateEventId` of `persistentEventStore.ts`:
format `streamId ++ "_" ++ Date.now() ++ "_" ++ randomUUID().substring(0,8)`.
`now` is the millisecond clock reading and `randomSuffix` the UUID prefix,
both environment inputs. -/
def generateEventId (streamId : Str) (now : Nat) (randomSuffix : Str) : Str :=
  streamId ++ '_' :: ((Nat.repr now).data ++ '_' :: randomSuffix)

/-- The error SQL Server raises when an `INSERT` violates the primary key
on `EventId`. -/
def pkViolationErr : Str := "Violation of PRIMARY KEY constraint".data

/-- The error SQL Server raises when a scalar subquery returns more than one
value. -/
def subqueryErr : Str := "Subquery returned more than 1 value".data

section EventStore

variable {Msg : Type}

/-- `PersistentEventStore.storeEvent`.  Generates the event id from the
`Date.now()` reading `now`, serializes the message with the external
JSON codec, acquires the pool (which may throw `poolErr`), and runs the
`INSERT` (which may throw `insertErr`, and deterministically throws a
primary-key violation when the generated id already exists).  Any error is
logged and re-thrown unchanged; on success the new row is appended and the
generated id returned.  `storedAt` models the separate `new Date()` reading. -/
def storeEvent (stringify : Msg → Str) (poolErr insertErr : Option Str)
    (log : List Row) (streamId : Str) (message : Msg) (now storedAt : Nat)
    (randomSuffix : Str) : Except Str (List Row × Str) :=
  let eventId := generateEventId streamId now randomSuffix
  let messageJson := stringify message
  match poolErr with
  | some e => .error e
  | none =>
    match insertErr with
    | some e => .error e
    | none =>
      if log.any (fun r => r.eventId == eventId) then .error pkViolationErr
      else .ok (log ++ [⟨eventId, streamId, messageJson, storedAt⟩], eventId)

/-- JavaScript `s.split('_')` for a single-character separator: splits the
character list at every occurrence of `sep`; never returns an empty list. -/
def splitSep (sep : Char) : Str → List Str
  | [] => [[]]
  | c :: rest =>
    match splitSep sep rest with
    | [] => [[]]
    | t :: ts => if c = sep then [] :: t :: ts else (c :: t) :: ts

/-- `lastEventId.split('_')[0]` — the stream id extraction at the start of
`replayEventsAfter`. -/
def extractStreamId (lastEventId : Str) : Str :=
  (splitSep '_' lastEventId).headD []

/-- The scalar subquery
`SELECT le.StoredAt FROM McpEvents le WHERE le.EventId = @LastEventId AND
le.StreamId = @TargetStreamId`: yields `NULL` (`none`) when no row matches,
the single `StoredAt` when exactly one does, and raises a SQL error when
several do (impossible while the primary key holds). -/
def lookupStoredAt (log : List Row) (streamId lastEventId : Str) :
    Except Str (Option Nat) :=
  match log.filter (fun r => r.eventId == lastEventId && r.streamId == streamId) with
  | [] => .ok none
  | [r] => .ok (some r.storedAt)
  | _ :: _ :: _ => .error subqueryErr

/-- `e.StoredAt > (scalar subquery)`: comparison with `NULL` is never true. -/
def matchesRef : Option Nat → Nat → Bool
  | none, _ => false
  | some t, s => decide (t < s)

/-- Stable insertion of a row into a list sorted ascending by `storedAt`. -/
def insertByStoredAt (r : Row) : List Row → List Row
  | [] => [r]
  | x :: xs =>
    if r.storedAt ≤ x.storedAt then r :: x :: xs else x :: insertByStoredAt r xs

/-- `ORDER BY e.StoredAt ASC`, modelled as a stable insertion sort. -/
def sortByStoredAt : List Row → List Row
  | [] => []
  | r :: rs => insertByStoredAt r (sortByStoredAt rs)

/-- The `for (const row of result.recordset)` delivery loop of
`replayEventsAfter`: for each row in order, `JSON.parse` the stored payload
and `await send(eventId, message)`; the `try/catch` inside the loop body
catches both a parse error (`parse _ = none`) and an error thrown by `send`
(`sendOk _ _ = false`), logs it, and continues with the next row, so only
successfully sent events are counted as replayed.  Returns the delivered
`(eventId, message)` pairs in delivery order. -/
def deliverLoop (parse : Str → Option Msg) (sendOk : Str → Msg → Bool) :
    List Row → List (Str × Msg)
  | [] => []
  | r :: rest =>
    match parse r.messageJson with
    | none => deliverLoop parse sendOk rest
    | some m =>
      if sendOk r.eventId m then (r.eventId, m) :: deliverLoop parse sendOk rest
      else deliverLoop parse sendOk rest

/-- `PersistentEventStore.replayEventsAfter`.  Returns `''` doing nothing when
`lastEventId` is empty or the extracted stream id is empty; otherwise acquires
the pool (may throw `poolErr`) and runs the replay query (may throw
`queryErr`): selects the rows of the extracted stream stored strictly after
the `StoredAt` of `lastEventId` (no rows when that id is absent, since the
comparison with `NULL` is never true), ordered ascending by `StoredAt`, and
delivers them one at a time through `send`.  Errors thrown by `getDbPool` or
the query are re-thrown; per-event parse/send errors are swallowed by the
loop.  Returns the extracted stream id and the delivered pairs. -/
def replayEventsAfter (parse : Str → Option Msg) (poolErr queryErr : Option Str)
    (log : List Row) (lastEventId : Str) (sendOk : Str → Msg → Bool) :
    Except Str (Str × List (Str × Msg)) :=
  if lastEventId = [] then .ok ([], [])
  else
    let streamId := extractStreamId lastEventId
    if streamId = [] then .ok ([], [])
    else
      match poolErr with
      | some e => .error e
      | none =>
        match queryErr with
        | some e => .error e
        | none =>
          match lookupStoredAt log streamId lastEventId with
          | .error e => .error e
          | .ok ref =>
            let rows := sortByStoredAt
              (log.filter (fun r => r.streamId == streamId && matchesRef ref r.storedAt))
            .ok (streamId, deliverLoop parse sendOk rows)

/-- One call to `storeEvent`, with its stream, message, clock readings and
random suffix (all inputs of the call or of the environment at the call). -/
structure AppendOp (Msg : Type) where
  streamId : Str
  message : Msg
  now : Nat
  storedAt : Nat
  randomSuffix : Str
deriving DecidableEq

/-- The event id `storeEvent` generates for an append. -/
def idOf (op : AppendOp Msg) : Str :=
  generateEventId op.streamId op.now op.randomSuffix

/-- The table row a successful `storeEvent` writes for an append. -/
def rowOf (stringify : Msg → Str) (op : AppendOp Msg) : Row :=
  ⟨idOf op, op.streamId, stringify op.message, op.storedAt⟩

/-- A sequence of `storeEvent` calls (no environment faults), threading the
table state and collecting the returned event ids. -/
def runAppends (stringify : Msg → Str) :
    List (AppendOp Msg) → List Row → Except Str (List Row × List Str)
  | [], log => .ok (log, [])
  | op :: rest, log =>
    match storeEvent stringify none none log op.streamId op.message op.now
        op.storedAt op.randomSuffix with
    | .error e => .error e
    | .ok (log2, eid) =>
      match runAppends stringify rest log2 with
      | .error e => .error e
      | .ok (log3, ids) => .ok (log3, eid :: ids)

end EventStore

/-! ### Session registry (`src/index.ts`) -/

/-- Outcome of the `app.post('/mcp')` handler's session dispatch. -/
inductive PostOutcome where
  | reused (sessionId : Str)
  | initialized (sessionId : Str)
  | badRequest
deriving DecidableEq

/-- Outcome of `handleSessionRequest` (GET/DELETE `/mcp`). -/
inductive SessionReqOutcome where
  | rejected
  | handled (sessionId : Str)
deriving DecidableEq

/-- JavaScript truthiness of `req.headers['mcp-session-id']`
(`string | undefined`): falsy when absent or the empty string. -/
def headerTruthy : Option Str → Bool
  | none => false
  | some s => !(s == [])

/-- `transports[sessionId]` is truthy exactly when the id is registered
(the map stores live transport objects, which are truthy). -/
def sessionKnown (reg : List Str) : Option Str → Bool
  | none => false
  | some s => reg.contains s

/-- The session dispatch of the `app.post('/mcp')` handler:
`if (sessionId && transports[sessionId])` reuse the registered transport;
`else if (!sessionId && isInitializeRequest(req.body))` create a transport
with a fresh server-generated id (registered by `onsessioninitialized`);
otherwise answer 400 "Bad Request: No valid session ID provided or not an
initialization request".  Returns the outcome and the updated registry. -/
def handlePost (reg : List Str) (header : Option Str) (isInit : Bool)
    (newSessionId : Str) : PostOutcome × List Str :=
  if headerTruthy header && sessionKnown reg header then
    (.reused (header.getD []), reg)
  else if !headerTruthy header && isInit then
    (.initialized newSessionId, reg ++ [newSessionId])
  else
    (.badRequest, reg)

/-- `handleSessionRequest` of `index.ts` (GET and DELETE `/mcp`):
`if (!sessionId || !transports[sessionId])` respond 400
"Invalid or missing session ID", else handle with the stored transport. -/
def handleSessionRequest (reg : List Str) (header : Option Str) :
    SessionReqOutcome :=
  if !headerTruthy header || !sessionKnown reg header then .rejected
  else .handled (header.getD [])

/-- The `transport.onclose` observer:
`if (transport.sessionId) delete transports[transport.sessionId]`.
`transport.sessionId` is `string | undefined`; the guard is JS truthiness. -/
def oncloseCleanup (reg : List Str) (transportSessionId : Option Str) :
    List Str :=
  match transportSessionId with
  | none => reg
  | some s => if s = [] then reg else reg.filter (fun t => !(t == s))

/-- Registry lookup: `transports[sessionId]` yields a transport (`true`) or
`undefined` (`false`, the `NotFound` of the spec). -/
def resolveSession (reg : List Str) (s : Str) : Bool := reg.contains s

end MCP

namespace MCP

/-! ### Helper lemmas -/

theorem splitSep_ne_nil (sep : Char) (s : Str) : splitSep sep s ≠ [] := by
  cases s with
  | nil => simp [splitSep]
  | cons c rest =>
    cases h : splitSep sep rest with
    | nil => simp [splitSep, h]
    | cons t ts =>
      simp only [splitSep, h]
      split <;> simp

theorem splitSep_append_sep (sep : Char) (a b : Str) (h : sep ∉ a) :
    splitSep sep (a ++ sep :: b) = a :: splitSep sep b := by
  induction a with
  | nil =>
    simp only [List.nil_append, splitSep]
    cases hb : splitSep sep b with
    | nil => exact absurd hb (splitSep_ne_nil sep b)
    | cons t ts => simp
  | cons c a' ih =>
    have hc : c ≠ sep := fun hc => h (hc ▸ List.mem_cons_self c a')
    have h' : sep ∉ a' := fun hm => h (List.mem_cons_of_mem c hm)
    rw [List.cons_append]
    simp only [splitSep]
    rw [ih h']
    simp [hc]

theorem generateEventId_ne_nil (s : Str) (now : Nat) (suf : Str) :
    generateEventId s now suf ≠ [] := by
  cases s <;> simp [generateEventId]

theorem extractStreamId_generateEventId (s : Str) (h : '_' ∉ s) (now : Nat)
    (suf : Str) : extractStreamId (generateEventId s now suf) = s := by
  unfold extractStreamId generateEventId
  rw [splitSep_append_sep '_' s ((Nat.repr now).data ++ '_' :: suf) h]
  rfl

theorem insertByStoredAt_of_le (r : Row) (l : List Row)
    (h : ∀ x ∈ l, r.storedAt ≤ x.storedAt) : insertByStoredAt r l = r :: l := by
  cases l with
  | nil => rfl
  | cons x xs => simp [insertByStoredAt, h x (List.mem_cons_self x xs)]

theorem sortByStoredAt_of_sorted (l : List Row)
    (h : l.Pairwise (fun a b => a.storedAt ≤ b.storedAt)) :
    sortByStoredAt l = l := by
  induction l with
  | nil => rfl
  | cons r rs ih =>
    rw [List.pairwise_cons] at h
    simp only [sortByStoredAt, ih h.2]
    exact insertByStoredAt_of_le r rs h.1

end MCP

namespace MCP

theorem deliverLoop_append {Msg : Type} (parse : Str → Option Msg)
    (sendOk : Str → Msg → Bool) (xs ys : List Row) :
    deliverLoop parse sendOk (xs ++ ys) =
      deliverLoop parse sendOk xs ++ deliverLoop parse sendOk ys := by
  induction xs with
  | nil => rfl
  | cons r rest ih =>
    rw [List.cons_append]
    simp only [deliverLoop]
    cases parse r.messageJson with
    | none => exact ih
    | some m =>
      dsimp only
      split <;> simp [ih]

theorem deliverLoop_parse_fail {Msg : Type} (parse : Str → Option Msg)
    (sendOk : Str → Msg → Bool) (r : Row) (rest : List Row)
    (hp : parse r.messageJson = none) :
    deliverLoop parse sendOk (r :: rest) = deliverLoop parse sendOk rest := by
  simp [deliverLoop, hp]

theorem deliverLoop_send_fail {Msg : Type} (parse : Str → Option Msg)
    (sendOk : Str → Msg → Bool) (r : Row) (rest : List Row) (m : Msg)
    (hp : parse r.messageJson = some m) (hs : sendOk r.eventId m = false) :
    deliverLoop parse sendOk (r :: rest) = deliverLoop parse sendOk rest := by
  simp [deliverLoop, hp, hs]

theorem deliverLoop_all_ok {Msg : Type} (stringify : Msg → Str)
    (parse : Str → Option Msg) (sendOk : Str → Msg → Bool)
    (ops : List (AppendOp Msg))
    (hrt : ∀ o ∈ ops, parse (stringify o.message) = some o.message)
    (hs : ∀ o ∈ ops, sendOk (idOf o) o.message = true) :
    deliverLoop parse sendOk (ops.map (rowOf stringify)) =
      ops.map (fun o => (idOf o, o.message)) := by
  induction ops with
  | nil => rfl
  | cons o rest ih =>
    have h1 : parse (stringify o.message) = some o.message :=
      hrt o (List.mem_cons_self o rest)
    have h2 : sendOk (idOf o) o.message = true := hs o (List.mem_cons_self o rest)
    have ih' := ih (fun x hx => hrt x (List.mem_cons_of_mem o hx))
      (fun x hx => hs x (List.mem_cons_of_mem o hx))
    simp only [List.map_cons, deliverLoop, rowOf, h1, h2, if_true, ih']

theorem storeEvent_no_fault {Msg : Type} (stringify : Msg → Str)
    (log : List Row) (streamId : Str) (message : Msg) (now storedAt : Nat)
    (randomSuffix : Str) :
    storeEvent stringify none none log streamId message now storedAt randomSuffix =
      if log.any (fun r => r.eventId == generateEventId streamId now randomSuffix)
      then .error pkViolationErr
      else .ok (log ++ [rowOf stringify ⟨streamId, message, now, storedAt, randomSuffix⟩],
                generateEventId streamId now randomSuffix) := rfl

theorem runAppends_ok {Msg : Type} (stringify : Msg → Str) :
    ∀ (ops : List (AppendOp Msg)) (init log : List Row) (ids : List Str),
      runAppends stringify ops init = .ok (log, ids) →
      log = init ++ ops.map (rowOf stringify) ∧ ids = ops.map idOf
  | [], init, log, ids, h => by
    simp only [runAppends, Except.ok.injEq, Prod.mk.injEq] at h
    simp [← h.1, ← h.2]
  | op :: rest, init, log, ids, h => by
    rw [runAppends, storeEvent_no_fault] at h
    by_cases hdup :
        (init.any fun r => r.eventId == generateEventId op.streamId op.now op.randomSuffix) = true
    · rw [if_pos hdup] at h
      exact absurd h (by simp)
    · rw [if_neg hdup] at h
      dsimp only at h
      cases hrec : runAppends stringify rest
          (init ++ [rowOf stringify ⟨op.streamId, op.message, op.now, op.storedAt,
            op.randomSuffix⟩]) with
      | error e => rw [hrec] at h; exact absurd h (by simp)
      | ok p =>
        rw [hrec] at h
        obtain ⟨hlog, hids⟩ := runAppends_ok stringify rest _ p.1 p.2 (by rw [hrec])
        simp only [Except.ok.injEq, Prod.mk.injEq] at h
        constructor
        · rw [← h.1, hlog]
          simp [idOf, rowOf]
        · rw [← h.2, hids]
          simp [idOf]

theorem runAppends_nodup {Msg : Type} (stringify : Msg → Str) :
    ∀ (ops : List (AppendOp Msg)) (init log : List Row) (ids : List Str),
      runAppends stringify ops init = .ok (log, ids) →
      (init.map Row.eventId).Nodup → (log.map Row.eventId).Nodup
  | [], init, log, ids, h, hinit => by
    simp only [runAppends, Except.ok.injEq, Prod.mk.injEq] at h
    rw [← h.1]; exact hinit
  | op :: rest, init, log, ids, h, hinit => by
    rw [runAppends, storeEvent_no_fault] at h
    by_cases hdup :
        (init.any fun r => r.eventId == generateEventId op.streamId op.now op.randomSuffix) = true
    · rw [if_pos hdup] at h
      exact absurd h (by simp)
    · rw [if_neg hdup] at h
      dsimp only at h
      cases hrec : runAppends stringify rest
          (init ++ [rowOf stringify ⟨op.streamId, op.message, op.now, op.storedAt,
            op.randomSuffix⟩]) with
      | error e => rw [hrec] at h; exact absurd h (by simp)
      | ok p =>
        rw [hrec] at h
        simp only [Except.ok.injEq, Prod.mk.injEq] at h
        have hnotmem :
            generateEventId op.streamId op.now op.randomSuffix ∉ init.map Row.eventId := by
          intro hmem
          apply hdup
          rw [List.any_eq_true]
          obtain ⟨r, hr, hre⟩ := List.mem_map.mp hmem
          exact ⟨r, hr, by simp [hre]⟩
        have hinit' :
            ((init ++ [rowOf stringify ⟨op.streamId, op.message, op.now, op.storedAt,
              op.randomSuffix⟩]).map Row.eventId).Nodup := by
          rw [List.map_append]
          rw [List.nodup_append]
          refine ⟨hinit, by simp, ?_⟩
          intro a ha hb
          simp only [rowOf, idOf, List.map_cons, List.map_nil, List.mem_singleton] at hb
          rw [hb] at ha
          exact hnotmem ha
        have := runAppends_nodup stringify rest _ p.1 p.2 (by rw [hrec]) hinit'
        rw [← h.1]
        exact this

end MCP

namespace MCP

/-- Central characterisation of a replay over a log produced by a fault-free
sequence of appends: if the appends to stream `s` (in order, possibly
interleaved with appends to other streams) are `preOps ++ opk :: postOps`,
the stream id `s` is separator-free and nonempty, and the `StoredAt`
timestamps of the appends to `s` are strictly increasing, then replaying
after the event id generated for `opk` runs the delivery loop exactly on the
rows of `postOps`, in append order, and returns `s`. -/
theorem replay_after_appends {Msg : Type} (stringify : Msg → Str)
    (parse : Str → Option Msg) (sendOk : Str → Msg → Bool)
    (ops preOps postOps : List (AppendOp Msg)) (opk : AppendOp Msg)
    (s : Str) (log : List Row) (ids : List Str)
    (hrun : runAppends stringify ops [] = .ok (log, ids))
    (hfil : ops.filter (fun o => o.streamId == s) = preOps ++ opk :: postOps)
    (hmono : (preOps ++ opk :: postOps).Pairwise (fun a b => a.storedAt < b.storedAt))
    (hsep : '_' ∉ s) (hs : s ≠ []) :
    replayEventsAfter parse none none log (idOf opk) sendOk =
      .ok (s, deliverLoop parse sendOk (postOps.map (rowOf stringify))) := by
  obtain ⟨hlog, -⟩ := runAppends_ok stringify ops [] log ids hrun
  rw [List.nil_append] at hlog
  subst hlog
  have hopkmem : opk ∈ ops.filter (fun o => o.streamId == s) := by
    rw [hfil]
    exact List.mem_append_right _ (List.mem_cons_self _ _)
  have hopks : opk.streamId = s := by
    have := List.of_mem_filter hopkmem
    simpa using this
  have hid : idOf opk = generateEventId s opk.now opk.randomSuffix := by
    rw [idOf, hopks]
  have hne : idOf opk ≠ [] := by
    rw [hid]
    exact generateEventId_ne_nil s opk.now opk.randomSuffix
  have hex : extractStreamId (idOf opk) = s := by
    rw [hid]
    exact extractStreamId_generateEventId s hsep opk.now opk.randomSuffix
  have hnodup : ((ops.map (rowOf stringify)).map Row.eventId).Nodup :=
    runAppends_nodup stringify ops [] _ ids hrun (by simp)
  have hnodup2 : (ops.map idOf).Nodup := by
    rw [List.map_map] at hnodup
    exact hnodup
  have hnodup3 : ((preOps ++ opk :: postOps).map idOf).Nodup := by
    rw [← hfil]
    exact ((List.filter_sublist ops).map idOf).nodup hnodup2
  have hnm : idOf opk ∉ preOps.map idOf ∧ idOf opk ∉ postOps.map idOf := by
    rw [List.map_append, List.map_cons, List.nodup_append] at hnodup3
    obtain ⟨h1, h2, h3⟩ := hnodup3
    rw [List.nodup_cons] at h2
    exact ⟨fun hmem => h3 hmem (List.mem_cons_self _ _), h2.1⟩
  have hpre_ne : ∀ o ∈ preOps, idOf o ≠ idOf opk := by
    intro o ho he
    exact hnm.1 (he ▸ List.mem_map_of_mem idOf ho)
  have hpost_ne : ∀ o ∈ postOps, idOf o ≠ idOf opk := by
    intro o ho he
    exact hnm.2 (he ▸ List.mem_map_of_mem idOf ho)
  have hmpair := List.pairwise_append.mp hmono
  have hmono1 : ∀ o ∈ preOps, o.storedAt < opk.storedAt := by
    intro o ho
    exact hmpair.2.2 o ho opk (List.mem_cons_self _ _)
  have h2 := hmpair.2.1
  rw [List.pairwise_cons] at h2
  have hmono2 : ∀ o ∈ postOps, opk.storedAt < o.storedAt := h2.1
  have hmono3 : postOps.Pairwise (fun a b => a.storedAt < b.storedAt) := h2.2
  have hopsfil : ops.filter (fun o => idOf o == idOf opk && (o.streamId == s)) = [opk] := by
    rw [← List.filter_filter, hfil, List.filter_append]
    have e1 : preOps.filter (fun o => idOf o == idOf opk) = [] :=
      List.filter_eq_nil_iff.mpr (fun o ho => by simp [hpre_ne o ho])
    have e2 : (opk :: postOps).filter (fun o => idOf o == idOf opk) = [opk] := by
      rw [List.filter_cons_of_pos (by simp)]
      rw [List.filter_eq_nil_iff.mpr (fun o ho => by simp [hpost_ne o ho])]
    rw [e1, e2]
    rfl
  have hfilter1 : (ops.map (rowOf stringify)).filter
      (fun r => r.eventId == idOf opk && r.streamId == s) = [rowOf stringify opk] := by
    rw [List.filter_map]
    show (ops.filter (fun o => idOf o == idOf opk && (o.streamId == s))).map
      (rowOf stringify) = [rowOf stringify opk]
    rw [hopsfil]
    rfl
  have hlookup : lookupStoredAt (ops.map (rowOf stringify)) s (idOf opk) =
      .ok (some opk.storedAt) := by
    unfold lookupStoredAt
    rw [hfilter1]
    rfl
  have hopsfil2 : ops.filter
      (fun o => (o.streamId == s) && decide (opk.storedAt < o.storedAt)) = postOps := by
    rw [List.filter_congr
      (fun o _ => Bool.and_comm (o.streamId == s) (decide (opk.storedAt < o.storedAt)))]
    rw [← List.filter_filter, hfil, List.filter_append]
    have e1 : preOps.filter (fun o => decide (opk.storedAt < o.storedAt)) = [] :=
      List.filter_eq_nil_iff.mpr
        (fun o ho => by simp [Nat.lt_asymm (hmono1 o ho)])
    have e2 : (opk :: postOps).filter (fun o => decide (opk.storedAt < o.storedAt)) =
        postOps := by
      rw [List.filter_cons_of_neg (by simp)]
      exact List.filter_eq_self.mpr (fun o ho => by simp [hmono2 o ho])
    rw [e1, e2, List.nil_append]
  have hfilter2 : (ops.map (rowOf stringify)).filter
      (fun r => r.streamId == s && matchesRef (some opk.storedAt) r.storedAt) =
      postOps.map (rowOf stringify) := by
    rw [List.filter_map]
    show (ops.filter
      (fun o => (o.streamId == s) && decide (opk.storedAt < o.storedAt))).map
      (rowOf stringify) = postOps.map (rowOf stringify)
    rw [hopsfil2]
  have hsorted : sortByStoredAt (postOps.map (rowOf stringify)) =
      postOps.map (rowOf stringify) := by
    apply sortByStoredAt_of_sorted
    rw [List.pairwise_map]
    exact hmono3.imp (fun h => Nat.le_of_lt h)
  unfold replayEventsAfter
  rw [if_neg hne]
  dsimp only
  rw [hex, if_neg hs, hlookup]
  dsimp only
  rw [hfilter2, hsorted]

end MCP

namespace MCP

/-- Claim C2, counterexample: for the accepted stream id `"a_b"` (the store
performs no validation), the id generated by `storeEvent` starts `"a_b_5_x"`,
and the extraction step of `replayEventsAfter` recovers only `"a"`, not the
original stream id — the encoding and the extraction do not form a round
trip for all stream ids. -/
theorem C2_counterexample :
    generateEventId ['a', '_', 'b'] 5 ['x'] = ['a', '_', 'b', '_', '5', '_', 'x'] ∧
    extractStreamId (generateEventId ['a', '_', 'b'] 5 ['x']) = ['a'] ∧
    (['a'] : Str) ≠ ['a', '_', 'b'] :=
  ⟨rfl, rfl, by decide⟩

/-- Claim C2 (amended): for every stream id that does not contain the
separator `'_'`, extracting the stream id from an event id generated by
`storeEvent` for that stream yields the original stream id back. -/
theorem C2_roundtrip_sep_free (s : Str) (now : Nat) (suf : Str) (h : '_' ∉ s) :
    extractStreamId (generateEventId s now suf) = s :=
  extractStreamId_generateEventId s h now suf

/-- Witness for C2 at the concrete stream id `"ab"`. -/
theorem C2_witness :
    ('_' ∉ (['a', 'b'] : Str)) ∧
    extractStreamId (generateEventId ['a', 'b'] 7 ['z']) = ['a', 'b'] :=
  ⟨by decide, C2_roundtrip_sep_free ['a', 'b'] 7 ['z'] (by decide)⟩

/-- Claim C3: for every empty or unparseable last event id (one whose
stream-id extraction yields the empty string, i.e. the id is empty or starts
with the separator), `replayEventsAfter` returns an empty stream id, invokes
the deliver callback zero times, and raises no error — for every state of the
log and of the database environment. -/
theorem C3_empty_or_unparseable_noop {Msg : Type} (parse : Str → Option Msg)
    (poolErr queryErr : Option Str) (log : List Row) (lastEventId : Str)
    (sendOk : Str → Msg → Bool)
    (h : lastEventId = [] ∨ extractStreamId lastEventId = []) :
    replayEventsAfter parse poolErr queryErr log lastEventId sendOk =
      .ok ([], []) := by
  unfold replayEventsAfter
  by_cases he : lastEventId = []
  · rw [if_pos he]
  · rw [if_neg he]
    dsimp only
    have hex : extractStreamId lastEventId = [] := h.resolve_left he
    rw [hex]
    rfl

/-- Witness for C3 at the unparseable id `"_a"`. -/
theorem C3_witness :
    replayEventsAfter (Option.some : Str → Option Str) none none []
      ['_', 'a'] (fun _ _ => true) = .ok ([], []) :=
  C3_empty_or_unparseable_noop (Option.some : Str → Option Str) none none []
    ['_', 'a'] (fun _ _ => true) (Or.inr (by decide))

/-- Claim C4: for every well-formed last event id (nonempty extracted stream
id) such that no stored event has that id within the extracted stream,
`replayEventsAfter` (with a healthy pool and a fault-free query) returns the
extracted stream id with zero deliveries and does not throw: the scalar
subquery yields `NULL` and the `StoredAt > NULL` comparison excludes every
row. -/
theorem C4_unknown_id_empty_result {Msg : Type} (parse : Str → Option Msg)
    (log : List Row) (lastEventId : Str) (sendOk : Str → Msg → Bool)
    (hwf : extractStreamId lastEventId ≠ [])
    (hunk : ∀ r ∈ log,
      ¬(r.eventId = lastEventId ∧ r.streamId = extractStreamId lastEventId)) :
    replayEventsAfter parse none none log lastEventId sendOk =
      .ok (extractStreamId lastEventId, []) := by
  have hne : lastEventId ≠ [] := by
    intro h
    apply hwf
    rw [h]
    rfl
  have hlookup : lookupStoredAt log (extractStreamId lastEventId) lastEventId =
      .ok none := by
    unfold lookupStoredAt
    have hnilf : log.filter
        (fun r => r.eventId == lastEventId && r.streamId == extractStreamId lastEventId) =
        [] := by
      apply List.filter_eq_nil_iff.mpr
      intro r hr
      simp only [Bool.and_eq_true, beq_iff_eq, not_and]
      intro h1 h2
      exact hunk r hr ⟨h1, h2⟩
    rw [hnilf]
  have hfilter : log.filter
      (fun r => r.streamId == extractStreamId lastEventId && matchesRef none r.storedAt) =
      [] := by
    apply List.filter_eq_nil_iff.mpr
    intro r hr
    simp [matchesRef]
  unfold replayEventsAfter
  rw [if_neg hne]
  dsimp only
  rw [if_neg hwf, hlookup]
  dsimp only
  rw [hfilter]
  rfl

/-- Witness for C4: a log holding one event of stream `"t"`, replayed after
the well-formed but unknown id `"s_2_b"`. -/
theorem C4_witness :
    replayEventsAfter (Option.some : Str → Option Str) none none
      [⟨['t', '_', '1', '_', 'a'], ['t'], ['X'], 1⟩]
      ['s', '_', '2', '_', 'b'] (fun _ _ => true) = .ok (['s'], []) :=
  C4_unknown_id_empty_result (Option.some : Str → Option Str)
    [⟨['t', '_', '1', '_', 'a'], ['t'], ['X'], 1⟩]
    ['s', '_', '2', '_', 'b'] (fun _ _ => true) (by decide) (by decide)

/-- Claim C7, counterexample: `storeEvent` re-throws the raw underlying
error unchanged.  A pool failure with raw error `"X"` and a non-pool write
fault with the same raw error `"X"` produce identical results, so the two
failure classes are not distinguished by any distinct wrapped error, and the
propagated error is exactly the raw one. -/
theorem C7_counterexample :
    storeEvent (fun m : Str => m) (some ['X']) none [] ['s'] ['M'] 1 1 ['x'] =
      storeEvent (fun m : Str => m) none (some ['X']) [] ['s'] ['M'] 1 1 ['x'] ∧
    storeEvent (fun m : Str => m) (some ['X']) none [] ['s'] ['M'] 1 1 ['x'] =
      .error ['X'] :=
  ⟨rfl, rfl⟩

/-- Claim C7 (amended): every failure of `storeEvent` is a propagated
underlying error, never swallowed: when the pool cannot serve the write the
pool's own error is re-thrown; otherwise, when the insert faults, the
insert's error is re-thrown; and with a healthy pool and fault-free insert
the call either throws the primary-key violation or succeeds, appending
exactly the one new row and returning the generated id. -/
theorem C7_store_error_origin {Msg : Type} (stringify : Msg → Str)
    (poolErr insertErr : Option Str) (log : List Row) (streamId : Str)
    (message : Msg) (now storedAt : Nat) (randomSuffix : Str) :
    (∀ e, poolErr = some e →
      storeEvent stringify poolErr insertErr log streamId message now storedAt
        randomSuffix = .error e) ∧
    (∀ e, poolErr = none → insertErr = some e →
      storeEvent stringify poolErr insertErr log streamId message now storedAt
        randomSuffix = .error e) ∧
    (poolErr = none → insertErr = none →
      storeEvent stringify poolErr insertErr log streamId message now storedAt
          randomSuffix = .error pkViolationErr ∨
      storeEvent stringify poolErr insertErr log streamId message now storedAt
          randomSuffix =
        .ok (log ++ [rowOf stringify ⟨streamId, message, now, storedAt, randomSuffix⟩],
             generateEventId streamId now randomSuffix)) := by
  refine ⟨?_, ?_, ?_⟩
  · intro e he
    subst he
    rfl
  · intro e hp hi
    subst hp
    subst hi
    rfl
  · intro hp hi
    subst hp
    subst hi
    rw [storeEvent_no_fault]
    by_cases hdup :
        (log.any fun r => r.eventId == generateEventId streamId now randomSuffix) = true
    · rw [if_pos hdup]
      exact Or.inl rfl
    · rw [if_neg hdup]
      exact Or.inr rfl

/-- Witness for C7: a concrete pool failure propagates its raw error. -/
theorem C7_witness :
    storeEvent (fun m : Str => m) (some ['b', 'o', 'o', 'm']) none [] ['s']
      ['M'] 1 1 ['x'] = .error ['b', 'o', 'o', 'm'] :=
  (C7_store_error_origin (fun m : Str => m) (some ['b', 'o', 'o', 'm']) none []
    ['s'] ['M'] 1 1 ['x']).1 ['b', 'o', 'o', 'm'] rfl

end MCP

namespace MCP

/-- Claim C1, counterexample: two appends to stream `"s"` that receive the
identical `StoredAt` timestamp (wall-clock milliseconds, here both `1`).
Both appends succeed, yet replaying after the id of the first delivers
nothing: the strict `StoredAt >` comparison drops `m2`, although the claim
demands that exactly `[m2]` be delivered. -/
theorem C1_counterexample :
    runAppends (fun m : Str => m)
        [⟨['s'], ['A'], 1, 1, ['a']⟩, ⟨['s'], ['B'], 1, 1, ['b']⟩] [] =
      .ok ([⟨['s', '_', '1', '_', 'a'], ['s'], ['A'], 1⟩,
            ⟨['s', '_', '1', '_', 'b'], ['s'], ['B'], 1⟩],
           [['s', '_', '1', '_', 'a'], ['s', '_', '1', '_', 'b']]) ∧
    replayEventsAfter (Option.some : Str → Option Str) none none
        [⟨['s', '_', '1', '_', 'a'], ['s'], ['A'], 1⟩,
         ⟨['s', '_', '1', '_', 'b'], ['s'], ['B'], 1⟩]
        ['s', '_', '1', '_', 'a'] (fun _ _ => true) =
      .ok (['s'], []) ∧
    ([] : List (Str × Str)) ≠ [(['s', '_', '1', '_', 'b'], ['B'])] :=
  ⟨rfl, rfl, by decide⟩

/-- Claim C1 (amended): for every fault-free sequence of appends, possibly
interleaved across streams, and every stream `s` whose id is nonempty and
separator-free and whose appends receive strictly increasing `StoredAt`
timestamps, replaying (with the external JSON codec a round trip and every
delivery succeeding) after the event id generated for the k-th append of `s`
delivers exactly the payloads of the later appends of `s`, each paired with
its event id, in append order — and nothing from any other stream. -/
theorem C1_replay_delivers_exact_suffix {Msg : Type} (stringify : Msg → Str)
    (parse : Str → Option Msg) (ops preOps postOps : List (AppendOp Msg))
    (opk : AppendOp Msg) (s : Str) (log : List Row) (ids : List Str)
    (hrt : ∀ m : Msg, parse (stringify m) = some m)
    (hrun : runAppends stringify ops [] = .ok (log, ids))
    (hfil : ops.filter (fun o => o.streamId == s) = preOps ++ opk :: postOps)
    (hmono : (preOps ++ opk :: postOps).Pairwise (fun a b => a.storedAt < b.storedAt))
    (hsep : '_' ∉ s) (hs : s ≠ []) :
    replayEventsAfter parse none none log (idOf opk) (fun _ _ => true) =
      .ok (s, postOps.map (fun o => (idOf o, o.message))) := by
  rw [replay_after_appends stringify parse (fun _ _ => true) ops preOps postOps
    opk s log ids hrun hfil hmono hsep hs]
  rw [deliverLoop_all_ok stringify parse (fun _ _ => true) postOps
    (fun o _ => hrt o.message) (fun o _ => rfl)]

/-- Witness for C1: three appends — `"A"`, `"B"` to stream `"s"` at times 1
and 2, `"X"` to stream `"t"` at time 3 — replayed after the first event of
`"s"` deliver exactly `[("s_2_b", "B")]`. -/
theorem C1_witness :
    replayEventsAfter (Option.some : Str → Option Str) none none
      [⟨['s', '_', '1', '_', 'a'], ['s'], ['A'], 1⟩,
       ⟨['s', '_', '2', '_', 'b'], ['s'], ['B'], 2⟩,
       ⟨['t', '_', '3', '_', 'c'], ['t'], ['X'], 3⟩]
      ['s', '_', '1', '_', 'a'] (fun _ _ => true) =
      .ok (['s'], [(['s', '_', '2', '_', 'b'], ['B'])]) :=
  C1_replay_delivers_exact_suffix (fun m : Str => m)
    (Option.some : Str → Option Str)
    [⟨['s'], ['A'], 1, 1, ['a']⟩, ⟨['s'], ['B'], 2, 2, ['b']⟩,
     ⟨['t'], ['X'], 3, 3, ['c']⟩]
    [] [⟨['s'], ['B'], 2, 2, ['b']⟩] ⟨['s'], ['A'], 1, 1, ['a']⟩ ['s']
    [⟨['s', '_', '1', '_', 'a'], ['s'], ['A'], 1⟩,
     ⟨['s', '_', '2', '_', 'b'], ['s'], ['B'], 2⟩,
     ⟨['t', '_', '3', '_', 'c'], ['t'], ['X'], 3⟩]
    [['s', '_', '1', '_', 'a'], ['s', '_', '2', '_', 'b'], ['t', '_', '3', '_', 'c']]
    (fun _ => rfl) rfl rfl (by decide) (by decide) (by decide)

/-- Claim C6: appending payload `q` and then payload `p` to stream `s` (with
strictly increasing timestamps, a separator-free nonempty stream id, and the
external JSON codec a round trip), a replay after the first event reaches the
second and delivers a payload equal to `p`: the store passes `stringify p`
to the database unmodified and replays `parse` of the stored text, so
serialization at append time composed with deserialization at replay time is
the identity on delivered payloads. -/
theorem C6_payload_roundtrip {Msg : Type} (stringify : Msg → Str)
    (parse : Str → Option Msg) (s : Str) (q p : Msg) (n1 t1 n2 t2 : Nat)
    (u1 u2 : Str) (log : List Row) (ids : List Str)
    (hrt : ∀ m : Msg, parse (stringify m) = some m)
    (hrun : runAppends stringify
      [⟨s, q, n1, t1, u1⟩, ⟨s, p, n2, t2, u2⟩] [] = .ok (log, ids))
    (ht : t1 < t2) (hsep : '_' ∉ s) (hs : s ≠ []) :
    replayEventsAfter parse none none log (generateEventId s n1 u1)
      (fun _ _ => true) = .ok (s, [(generateEventId s n2 u2, p)]) := by
  have hfil : List.filter (fun o => o.streamId == s)
      [(⟨s, q, n1, t1, u1⟩ : AppendOp Msg), ⟨s, p, n2, t2, u2⟩] =
      [] ++ (⟨s, q, n1, t1, u1⟩ : AppendOp Msg) :: [⟨s, p, n2, t2, u2⟩] := by
    simp
  have hmono : (([] : List (AppendOp Msg)) ++
      (⟨s, q, n1, t1, u1⟩ : AppendOp Msg) :: [⟨s, p, n2, t2, u2⟩]).Pairwise
      (fun a b => a.storedAt < b.storedAt) := by
    simp [List.pairwise_cons]
    exact ht
  have h := replay_after_appends stringify parse (fun _ _ => true)
    [⟨s, q, n1, t1, u1⟩, ⟨s, p, n2, t2, u2⟩] [] [⟨s, p, n2, t2, u2⟩]
    ⟨s, q, n1, t1, u1⟩ s log ids hrun hfil hmono hsep hs
  show replayEventsAfter parse none none log
    (idOf (⟨s, q, n1, t1, u1⟩ : AppendOp Msg)) (fun _ _ => true) = _
  rw [h]
  rw [deliverLoop_all_ok stringify parse (fun _ _ => true) [⟨s, p, n2, t2, u2⟩]
    (fun o _ => hrt o.message) (fun o _ => rfl)]
  rfl

/-- Witness for C6: payload `"P"` appended after `"Q"` on stream `"s"` is
delivered back equal to `"P"`. -/
theorem C6_witness :
    replayEventsAfter (Option.some : Str → Option Str) none none
      [⟨['s', '_', '1', '_', 'a'], ['s'], ['Q'], 1⟩,
       ⟨['s', '_', '2', '_', 'b'], ['s'], ['P'], 2⟩]
      ['s', '_', '1', '_', 'a'] (fun _ _ => true) =
      .ok (['s'], [(['s', '_', '2', '_', 'b'], ['P'])]) :=
  C6_payload_roundtrip (fun m : Str => m) (Option.some : Str → Option Str)
    ['s'] ['Q'] ['P'] 1 1 2 2 ['a'] ['b']
    [⟨['s', '_', '1', '_', 'a'], ['s'], ['Q'], 1⟩,
     ⟨['s', '_', '2', '_', 'b'], ['s'], ['P'], 2⟩]
    [['s', '_', '1', '_', 'a'], ['s', '_', '2', '_', 'b']]
    (fun _ => rfl) rfl (by decide) (by decide) (by decide)

end MCP

namespace MCP

/-- Claim C5: in a replay set up as in C1, if the stored payload of exactly
one later event (`opj`) fails to deserialize while every other later payload
parses back, `replayEventsAfter` skips exactly that one event and delivers
all other later events of the stream in order; the corrupt record neither
aborts the remaining replay nor makes `replayEventsAfter` throw. -/
theorem C5_corrupt_record_skipped {Msg : Type} (stringify : Msg → Str)
    (parse : Str → Option Msg) (ops preOps post1 post2 : List (AppendOp Msg))
    (opk opj : AppendOp Msg) (s : Str) (log : List Row) (ids : List Str)
    (hrun : runAppends stringify ops [] = .ok (log, ids))
    (hfil : ops.filter (fun o => o.streamId == s) =
      preOps ++ opk :: (post1 ++ opj :: post2))
    (hmono : (preOps ++ opk :: (post1 ++ opj :: post2)).Pairwise
      (fun a b => a.storedAt < b.storedAt))
    (hsep : '_' ∉ s) (hs : s ≠ [])
    (hgood : ∀ o ∈ post1 ++ post2, parse (stringify o.message) = some o.message)
    (hbad : parse (stringify opj.message) = none) :
    replayEventsAfter parse none none log (idOf opk) (fun _ _ => true) =
      .ok (s, (post1 ++ post2).map (fun o => (idOf o, o.message))) := by
  rw [replay_after_appends stringify parse (fun _ _ => true) ops preOps
    (post1 ++ opj :: post2) opk s log ids hrun hfil hmono hsep hs]
  rw [List.map_append, List.map_cons, deliverLoop_append]
  rw [deliverLoop_parse_fail parse (fun _ _ => true) (rowOf stringify opj)
    (post2.map (rowOf stringify)) hbad]
  rw [deliverLoop_all_ok stringify parse (fun _ _ => true) post1
    (fun o ho => hgood o (List.mem_append_left post2 ho)) (fun o _ => rfl)]
  rw [deliverLoop_all_ok stringify parse (fun _ _ => true) post2
    (fun o ho => hgood o (List.mem_append_right post1 ho)) (fun o _ => rfl)]
  rw [← List.map_append]

/-- Witness for C5: three appends `"A"`, `"B"`, `"C"` to stream `"s"`; the
stored payload `"B"` fails to parse; replay after the first event delivers
exactly `[("s_3_c", "C")]`. -/
theorem C5_witness :
    replayEventsAfter
      (fun t : Str => if t = ['B'] then none else some t) none none
      [⟨['s', '_', '1', '_', 'a'], ['s'], ['A'], 1⟩,
       ⟨['s', '_', '2', '_', 'b'], ['s'], ['B'], 2⟩,
       ⟨['s', '_', '3', '_', 'c'], ['s'], ['C'], 3⟩]
      ['s', '_', '1', '_', 'a'] (fun _ _ => true) =
      .ok (['s'], [(['s', '_', '3', '_', 'c'], ['C'])]) :=
  C5_corrupt_record_skipped (fun m : Str => m)
    (fun t : Str => if t = ['B'] then none else some t)
    [⟨['s'], ['A'], 1, 1, ['a']⟩, ⟨['s'], ['B'], 2, 2, ['b']⟩,
     ⟨['s'], ['C'], 3, 3, ['c']⟩]
    [] [] [⟨['s'], ['C'], 3, 3, ['c']⟩]
    ⟨['s'], ['A'], 1, 1, ['a']⟩ ⟨['s'], ['B'], 2, 2, ['b']⟩ ['s']
    [⟨['s', '_', '1', '_', 'a'], ['s'], ['A'], 1⟩,
     ⟨['s', '_', '2', '_', 'b'], ['s'], ['B'], 2⟩,
     ⟨['s', '_', '3', '_', 'c'], ['s'], ['C'], 3⟩]
    [['s', '_', '1', '_', 'a'], ['s', '_', '2', '_', 'b'], ['s', '_', '3', '_', 'c']]
    rfl rfl (by decide) (by decide) (by decide) (by decide) rfl

/-- Claim C10: in a replay set up as in C1, if the deliver (`send`) callback
throws for exactly one later event (`opj`) and succeeds for every other later
event, the error is caught inside the per-event handler: that event is not
counted as replayed, the error does not propagate to the caller of
`replayEventsAfter` (the result is still `ok`), and delivery continues with
the remaining events of the stream in order. -/
theorem C10_send_error_contained {Msg : Type} (stringify : Msg → Str)
    (parse : Str → Option Msg) (sendOk : Str → Msg → Bool)
    (ops preOps post1 post2 : List (AppendOp Msg))
    (opk opj : AppendOp Msg) (s : Str) (log : List Row) (ids : List Str)
    (hrun : runAppends stringify ops [] = .ok (log, ids))
    (hfil : ops.filter (fun o => o.streamId == s) =
      preOps ++ opk :: (post1 ++ opj :: post2))
    (hmono : (preOps ++ opk :: (post1 ++ opj :: post2)).Pairwise
      (fun a b => a.storedAt < b.storedAt))
    (hsep : '_' ∉ s) (hs : s ≠ [])
    (hparse : ∀ o ∈ post1 ++ opj :: post2,
      parse (stringify o.message) = some o.message)
    (hsendgood : ∀ o ∈ post1 ++ post2, sendOk (idOf o) o.message = true)
    (hsendbad : sendOk (idOf opj) opj.message = false) :
    replayEventsAfter parse none none log (idOf opk) sendOk =
      .ok (s, (post1 ++ post2).map (fun o => (idOf o, o.message))) := by
  rw [replay_after_appends stringify parse sendOk ops preOps
    (post1 ++ opj :: post2) opk s log ids hrun hfil hmono hsep hs]
  rw [List.map_append, List.map_cons, deliverLoop_append]
  rw [deliverLoop_send_fail parse sendOk (rowOf stringify opj)
    (post2.map (rowOf stringify)) opj.message
    (hparse opj (List.mem_append_right post1 (List.mem_cons_self opj post2)))
    hsendbad]
  rw [deliverLoop_all_ok stringify parse sendOk post1
    (fun o ho => hparse o (List.mem_append_left (opj :: post2) ho))
    (fun o ho => hsendgood o (List.mem_append_left post2 ho))]
  rw [deliverLoop_all_ok stringify parse sendOk post2
    (fun o ho => hparse o
      (List.mem_append_right post1 (List.mem_cons_of_mem opj ho)))
    (fun o ho => hsendgood o (List.mem_append_right post1 ho))]
  rw [← List.map_append]

/-- Witness for C10: three appends `"A"`, `"B"`, `"C"` to stream `"s"`; the
send callback throws exactly on the event of `"B"`; replay after the first
event still returns `ok` and delivers `[("s_3_c", "C")]`. -/
theorem C10_witness :
    replayEventsAfter (Option.some : Str → Option Str) none none
      [⟨['s', '_', '1', '_', 'a'], ['s'], ['A'], 1⟩,
       ⟨['s', '_', '2', '_', 'b'], ['s'], ['B'], 2⟩,
       ⟨['s', '_', '3', '_', 'c'], ['s'], ['C'], 3⟩]
      ['s', '_', '1', '_', 'a']
      (fun eid _ => !(eid == ['s', '_', '2', '_', 'b'])) =
      .ok (['s'], [(['s', '_', '3', '_', 'c'], ['C'])]) :=
  C10_send_error_contained (fun m : Str => m)
    (Option.some : Str → Option Str)
    (fun eid _ => !(eid == ['s', '_', '2', '_', 'b']))
    [⟨['s'], ['A'], 1, 1, ['a']⟩, ⟨['s'], ['B'], 2, 2, ['b']⟩,
     ⟨['s'], ['C'], 3, 3, ['c']⟩]
    [] [] [⟨['s'], ['C'], 3, 3, ['c']⟩]
    ⟨['s'], ['A'], 1, 1, ['a']⟩ ⟨['s'], ['B'], 2, 2, ['b']⟩ ['s']
    [⟨['s', '_', '1', '_', 'a'], ['s'], ['A'], 1⟩,
     ⟨['s', '_', '2', '_', 'b'], ['s'], ['B'], 2⟩,
     ⟨['s', '_', '3', '_', 'c'], ['s'], ['C'], 3⟩]
    [['s', '_', '1', '_', 'a'], ['s', '_', '2', '_', 'b'], ['s', '_', '3', '_', 'c']]
    rfl rfl (by decide) (by decide) (by decide) (fun o _ => rfl)
    (by decide) rfl

end MCP

namespace MCP

/-- `transports[sessionId]` is `undefined` when the id is not registered. -/
theorem contains_eq_false_of_not_mem {s : Str} {reg : List Str}
    (h : s ∉ reg) : reg.contains s = false := by
  rw [List.contains_eq_any_beq, List.any_eq_false]
  intro x hx
  simp only [beq_iff_eq]
  intro he
  subst he
  exact h hx

/-- Claim C8, counterexample: a POST carrying the header `mcp-session-id`
with the empty-string value — a session id never issued by the server, hence
not in the registry — together with an initialize body is not rejected: the
empty string is falsy in the handler's guards, so the request is treated as
an initialization and a brand-new session is created and registered. -/
theorem C8_counterexample :
    handlePost [] (some []) true ['n'] = (.initialized ['n'], [['n']]) ∧
    (PostOutcome.initialized ['n'], [(['n'] : Str)]) ≠
      (PostOutcome.badRequest, ([] : List Str)) :=
  ⟨rfl, by decide⟩

/-- Claim C8 (amended): every inbound request presenting a nonempty session
id not currently in the registry is rejected with the client-visible
invalid-session error response — POST answers the 400 "Bad Request" JSON-RPC
error leaving the registry unchanged (no new session or transport is
created), and GET/DELETE answer 400 "Invalid or missing session ID" — and it
is never treated as an initialization. -/
theorem C8_unknown_session_rejected (reg : List Str) (s : Str) (isInit : Bool)
    (newSessionId : Str) (hne : s ≠ []) (hunk : s ∉ reg) :
    handlePost reg (some s) isInit newSessionId = (.badRequest, reg) ∧
    handleSessionRequest reg (some s) = .rejected := by
  have htr : headerTruthy (some s) = true := by
    simp [headerTruthy, hne]
  have hkn : sessionKnown reg (some s) = false := by
    simp only [sessionKnown]
    exact contains_eq_false_of_not_mem hunk
  constructor
  · unfold handlePost
    rw [htr, hkn]
    rfl
  · unfold handleSessionRequest
    rw [htr, hkn]
    rfl

/-- Witness for C8: the unknown nonempty id `"b"` against a registry holding
only `"a"`. -/
theorem C8_witness :
    handlePost [['a']] (some ['b']) true ['n'] = (.badRequest, [['a']]) ∧
    handleSessionRequest [['a']] (some ['b']) = .rejected :=
  C8_unknown_session_rejected [['a']] ['b'] true ['n'] (by decide) (by decide)

/-- Claim C9: after a session's close observer fires (the transport carries
its nonempty session id), looking that id up in the registry yields
`NotFound`, and a second close notification for the same session is a no-op:
it raises no error and leaves the registry unchanged. -/
theorem C9_close_observer_idempotent (reg : List Str) (s : Str)
    (hne : s ≠ []) :
    resolveSession (oncloseCleanup reg (some s)) s = false ∧
    oncloseCleanup (oncloseCleanup reg (some s)) (some s) =
      oncloseCleanup reg (some s) := by
  have hclean : oncloseCleanup reg (some s) = reg.filter (fun t => !(t == s)) := by
    simp [oncloseCleanup, hne]
  constructor
  · rw [resolveSession, hclean]
    apply contains_eq_false_of_not_mem
    intro hmem
    rw [List.mem_filter] at hmem
    simp at hmem
  · rw [hclean]
    simp only [oncloseCleanup]
    rw [if_neg hne]
    apply List.filter_eq_self.mpr
    intro a ha
    exact (List.mem_filter.mp ha).2

/-- Witness for C9: closing session `"a"` out of the registry `["a", "b"]`. -/
theorem C9_witness :
    resolveSession (oncloseCleanup [['a'], ['b']] (some ['a'])) ['a'] = false ∧
    oncloseCleanup (oncloseCleanup [['a'], ['b']] (some ['a'])) (some ['a']) =
      oncloseCleanup [['a'], ['b']] (some ['a']) :=
  C9_close_observer_idempotent [['a'], ['b']] ['a'] (by decide)

end MCP
